import Mathlib

/-!
Shallow embedding of the prescription-verification core (`src/model.py`) and
verification of its specification.

The embedding covers `DrugDB` (normalization, age-bracketed dose and limit
lookup, pairwise interaction lookup, alternatives) and `Analyzer`
(`extract` and `check`).  Python strings are modelled by Lean `String`
with hand-rolled, kernel-computable versions of `str.lower`, `str.strip`
and lexicographic `<` over code points; Python `dict`s are modelled by
insertion-ordered association lists with overwrite-in-place semantics;
Python truthiness of optional integers (`None`/`0` falsy) is modelled
explicitly wherever the source relies on it.

Parts of the repository that `src/model.py` imports from a `utils` module
(the dataset loader with its validation, the age-bracket classifier, the
fallback text parser) are not present under `src/`; those are modelled
from the spec and marked as such in their doc comments.
-/

namespace Model

/-! ### Python string primitives -/

/-- Embedding of Python `str.lower` on a single character (ASCII letters). -/
def charLower (c : Char) : Char :=
  if 65 ≤ c.toNat ∧ c.toNat ≤ 90 then Char.ofNat (c.toNat + 32) else c

/-- Embedding of Python `str.lower`. -/
def lowerStr (s : String) : String := ⟨s.data.map charLower⟩

/-- Whitespace recognised by Python `str.strip` (the forms that occur here). -/
def isPySpace (c : Char) : Bool := c = ' ' || c = '\t' || c = '\n' || c = '\r'

/-- Embedding of Python `str.strip`: drop whitespace at both ends. -/
def stripStr (s : String) : String :=
  ⟨((s.data.dropWhile isPySpace).reverse.dropWhile isPySpace).reverse⟩

/-- Lexicographic code-point comparison on character lists. -/
def charListLt : List Char → List Char → Bool
  | [], [] => false
  | [], _ :: _ => true
  | _ :: _, [] => false
  | a :: as, b :: bs =>
    if a.toNat < b.toNat then true
    else if b.toNat < a.toNat then false
    else charListLt as bs

/-- Embedding of Python `<` on strings (lexicographic over code points). -/
def strLt (a b : String) : Bool := charListLt a.data b.data

/-! ### Python dict primitives

Python dicts preserve insertion order; assigning to an existing key
overwrites the value in place, assigning to a fresh key appends. -/

/-- `m[k] = v` on an insertion-ordered association list. -/
def dictInsert {κ α : Type} [DecidableEq κ] (m : List (κ × α)) (k : κ) (v : α) :
    List (κ × α) :=
  if m.any (fun p => p.1 = k) then
    m.map (fun p => if p.1 = k then (k, v) else p)
  else m ++ [(k, v)]

/-- `m.get(k)` on an association list: first entry with key `k`. -/
def dictLookup {κ α : Type} [DecidableEq κ] (m : List (κ × α)) (k : κ) : Option α :=
  match m with
  | [] => none
  | p :: rest => if p.1 = k then some p.2 else dictLookup rest k

/-- The dict `{k: f k for k in keys}` (equivalently, a loop of insertions of
values that depend only on the key). -/
def dictOf {α : Type} (keys : List String) (f : String → α) : List (String × α) :=
  keys.foldl (fun acc k => dictInsert acc k (f k)) []

/-! ### Data model -/

/-- One record of the `drugs` list of the reference dataset.  The records are
raw JSON objects read with `.get`, so the dose fields are optional. -/
structure DrugRecord where
  name : String
  adult_dose : Option String
  child_dose : Option String
  aliases : List String
deriving Repr, DecidableEq

/-- One entry of the `max_daily_dose_mg` table: `{adult: int, child: int}`,
each key optional in the raw JSON object. -/
structure MaxEntry where
  adult : Option Nat
  child : Option Nat
deriving Repr, DecidableEq

/-- One record of the `interactions` table: `{pair: [a, b], severity, note}`. -/
structure Interaction where
  pair : String × String
  severity : String
  note : String
deriving Repr, DecidableEq

/-- The reference dataset held by `DrugDB` (`self.db` in `src/model.py`). -/
structure DrugDB where
  drugs : List DrugRecord
  max_daily_dose_mg : List (String × MaxEntry)
  interactions : List Interaction
  alternatives : List (String × List String)
deriving Repr, DecidableEq

/-- A request/response drug entry: `{drug, dose_mg, frequency_per_day}`. -/
structure DrugEntry where
  drug : String
  dose_mg : Option Nat
  frequency_per_day : Option Nat
deriving Repr, DecidableEq

/-! ### Age brackets -/

/-- The three age brackets of the spec. -/
inductive AgeGroup where
  | child
  | adolescent
  | adult
deriving Repr, DecidableEq

/-- Modelled from the spec: the age-bracket classifier `age_group` lives in
the missing `utils` module.  The spec requires a pediatric/adult split with
configurable thresholds and a bracket assignment that puts age 8 in the
child bracket and age 30 in the adult bracket; the usual thresholds
(child < 13 ≤ adolescent < 18 ≤ adult) are used. -/
def age_group (age : Nat) : AgeGroup :=
  if age < 13 then .child else if age < 18 then .adolescent else .adult

/-! ### DrugDB operations (`src/model.py`, lines 16–63) -/

/-- The loop body of `DrugDB.normalize`: scan the records in declaration
order for the first whose lowered name equals `n` or whose lowered aliases
contain `n`; return its canonical name. -/
def normalizeFrom (n : String) : List DrugRecord → Option String
  | [] => none
  | d :: rest =>
    if lowerStr d.name = n ∨ n ∈ d.aliases.map lowerStr then some d.name
    else normalizeFrom n rest

/-- `DrugDB.normalize`: `n = name.lower().strip()`, then first match wins. -/
def normalize (db : DrugDB) (name : String) : Option String :=
  normalizeFrom (stripStr (lowerStr name)) db.drugs

/-- `next((x for x in self.db["drugs"] if x["name"] == drug), None)`. -/
def findRecord (db : DrugDB) (drug : String) : Option DrugRecord :=
  db.drugs.find? (fun x => x.name = drug)

/-- `DrugDB.default_dose_for_age`. -/
def default_dose_for_age (db : DrugDB) (drug : String) (age : Nat) : Option String :=
  match findRecord db drug with
  | none => none
  | some d =>
    match age_group age with
    | .child | .adolescent => d.child_dose
    | .adult => d.adult_dose

/-- Python truthiness of a `max_daily_dose_mg` table entry: the raw dict is
falsy exactly when it has no keys. -/
def maxEntryTruthy (m : MaxEntry) : Bool := m.adult.isSome || m.child.isSome

/-- `DrugDB.max_daily_mg`. -/
def max_daily_mg (db : DrugDB) (drug : String) (age : Nat) : Option Nat :=
  match dictLookup db.max_daily_dose_mg drug with
  | none => none
  | some m =>
    if !maxEntryTruthy m then none
    else
      match age_group age with
      | .child | .adolescent => m.child
      | .adult => m.adult

/-- `set(p) == set([a, b])` for the two-element pair list `p`. -/
def pySetEq2 (p : String × String) (a b : String) : Bool :=
  (p.1 = a ∨ p.1 = b) ∧ (p.2 = a ∨ p.2 = b) ∧ (a = p.1 ∨ a = p.2) ∧ (b = p.1 ∨ b = p.2)

/-- The inner scan of `DrugDB.interactions_for`: all interaction records
whose pair set equals `{a, b}`, in table order. -/
def matchingInteractions (db : DrugDB) (a b : String) : List Interaction :=
  db.interactions.filter (fun it => pySetEq2 it.pair a b)

/-- The nested loops of `DrugDB.interactions_for`: thread the `pairs` seen-set
and the `out` accumulator through `for a in drugs: for b in drugs: ...`. -/
def interactionsLoop (db : DrugDB) (drugs : List String)
    (acc : List (String × String) × List Interaction) :
    List (String × String) × List Interaction :=
  drugs.foldl (fun acc a =>
    drugs.foldl (fun acc b =>
      if strLt a b then
        if (a, b) ∈ acc.1 then acc
        else ((a, b) :: acc.1, acc.2 ++ matchingInteractions db a b)
      else acc) acc) acc

/-- `DrugDB.interactions_for`. -/
def interactions_for (db : DrugDB) (drugs : List String) : List Interaction :=
  (interactionsLoop db drugs ([], [])).2

/-- `DrugDB.alternatives`. -/
def alternatives (db : DrugDB) (drug : String) : List String :=
  (dictLookup db.alternatives drug).getD []

/-! ### Example dataset -/

/-- Modelled from the spec: the example dataset fragment (the repository's
`datasets/drug_data.json` is not under `src/`).  The Paracetamol record, its
`max_daily_dose_mg` row and the Paracetamol–Warfarin interaction are exactly
the spec's example values; the Ibuprofen and Warfarin records and the
alternatives row complete the fragment minimally. -/
def exampleDB : DrugDB :=
  { drugs :=
      [ ⟨"Paracetamol", some "500mg q6h", some "250mg q6h", ["Acetaminophen"]⟩,
        ⟨"Ibuprofen", some "400mg q8h", some "200mg q8h", []⟩,
        ⟨"Warfarin", some "5mg daily", some "2mg daily", []⟩ ],
    max_daily_dose_mg := [("Paracetamol", ⟨some 4000, some 2000⟩)],
    interactions :=
      [ ⟨("Paracetamol", "Warfarin"), "moderate", "may increase bleeding risk"⟩ ],
    alternatives := [("Paracetamol", ["Ibuprofen"])] }

/-! ### Analyzer (`src/model.py`, lines 105–162) -/

/-- The possible results of `GraniteClient.extract_drug_info`
(`src/model.py`, lines 86–103): `[]` when the pipeline failed to load,
otherwise the raw generated text (a string), or `{"error": ...}` when
generation raised.  No branch produces a list of entries. -/
inductive GraniteResult where
  | noPipe
  | generated (s : String)
  | errored (e : String)
deriving Repr, DecidableEq

/-- The guard `granite_result and isinstance(granite_result, list)` of
`Analyzer.extract`: `[]` is falsy, a string is not a list, a dict is not a
list, so every constructor fails the guard. -/
def graniteUsableList : GraniteResult → Option (List DrugEntry)
  | .noPipe => none
  | .generated _ => none
  | .errored _ => none

/-- Python `or` on an optional string against a default: `None` and the
empty string are falsy. -/
def pyOrStr (o : Option String) (dflt : String) : String :=
  match o with
  | none => dflt
  | some s => if s = "" then dflt else s

/-- The per-entry cleaning step of `Analyzer.extract`:
`nm = self.db.normalize(d.get("drug","")) or d.get("drug","")`. -/
def normalizeEntry (db : DrugDB) (d : DrugEntry) : DrugEntry :=
  { drug := pyOrStr (normalize db d.drug) d.drug,
    dose_mg := d.dose_mg,
    frequency_per_day := d.frequency_per_day }

/-- Modelled from the spec: `parse_prescription`, the deterministic fallback
parser, lives in the missing `utils` module.  Per the spec it produces
entries of the same shape whose `drug` field is passed through
`DrugDatabase.normalize` with the raw string retained on failure; the raw
entries it recovers from the text are abstracted as `fallbackRaw`. -/
def parse_prescription (db : DrugDB) (fallbackRaw : List DrugEntry) : List DrugEntry :=
  fallbackRaw.map (normalizeEntry db)

/-- Python truthiness of the optional free text: `None` and `""` are falsy. -/
def textTruthy (text : Option String) : Bool :=
  match text with
  | none => false
  | some t => t ≠ ""

/-- `Analyzer.extract`.  `explicit_drugs` is the (possibly empty) explicit
list (`None` behaves as `[]` under the guard), `granite` the collaborator
outcome, `fallbackRaw` the raw entries of the fallback parser. -/
def extract (db : DrugDB) (granite : GraniteResult) (text : Option String)
    (explicit_drugs : List DrugEntry) (fallbackRaw : List DrugEntry) :
    List DrugEntry :=
  if explicit_drugs.length > 0 then
    explicit_drugs.map (normalizeEntry db)
  else if textTruthy text then
    match graniteUsableList granite with
    | some l => if l.length > 0 then l else parse_prescription db fallbackRaw
    | none => parse_prescription db fallbackRaw
  else []

/-- One value of the `dosage_guidance` dict of the result. -/
structure Guidance where
  recommended_dose_for_age : Option String
  max_daily_mg : Option Nat
deriving Repr, DecidableEq

/-- One element of the `warnings` list of the result. -/
structure DoseWarning where
  drug : String
  issue : String
  computed_mg_per_day : Nat
  max_daily_mg : Nat
deriving Repr, DecidableEq

/-- The dict returned by `Analyzer.check`. -/
structure AnalysisResult where
  drugs_parsed : List DrugEntry
  interactions : List Interaction
  dosage_guidance : List (String × Guidance)
  warnings : List DoseWarning
  alternatives : List (String × List String)
deriving Repr, DecidableEq

/-- `total = dose * freq if dose and freq else None`: Python truthiness
makes `total` defined exactly when both fields are present and nonzero. -/
def totalMg (e : DrugEntry) : Option Nat :=
  match e.dose_mg, e.frequency_per_day with
  | some d, some f => if d ≠ 0 ∧ f ≠ 0 then some (d * f) else none
  | _, _ => none

/-- The warning test of `Analyzer.check`:
`if total and max_daily and total > max_daily`, again under Python
truthiness (`None` and `0` falsy). -/
def warnFor (db : DrugDB) (age : Nat) (e : DrugEntry) : Option DoseWarning :=
  match totalMg e, max_daily_mg db e.drug age with
  | some t, some m =>
    if t ≠ 0 ∧ m ≠ 0 ∧ t > m then
      some ⟨e.drug, "Dose exceeds max daily limit", t, m⟩
    else none
  | some _, none => none
  | none, _ => none

/-- The per-entry loop of `Analyzer.check`, threading the `recs` dict and
the `warnings` list. -/
def checkLoop (db : DrugDB) (age : Nat) (items : List DrugEntry)
    (acc : List (String × Guidance) × List DoseWarning) :
    List (String × Guidance) × List DoseWarning :=
  items.foldl (fun acc e =>
    (dictInsert acc.1 e.drug
        ⟨default_dose_for_age db e.drug age, max_daily_mg db e.drug age⟩,
      acc.2 ++ (warnFor db age e).toList)) acc

/-- `Analyzer.check`. -/
def check (db : DrugDB) (items : List DrugEntry) (age : Nat) : AnalysisResult :=
  let drugs := items.map (fun i => i.drug)
  let interactions := interactions_for db drugs
  let rw := checkLoop db age items ([], [])
  let alts := drugs.foldl (fun acc nm => dictInsert acc nm (alternatives db nm)) []
  { drugs_parsed := items,
    interactions := interactions,
    dosage_guidance := rw.1,
    warnings := rw.2,
    alternatives := alts }

/-! ### Well-formedness of a loaded dataset -/

/-- Modelled from the spec: the dataset loader `load_db` (missing `utils`
module) fails with a fatal `DataError` on any structural violation —
duplicate canonical name (names are unique case-insensitively), an alias
colliding with another record's name, or an interaction pair,
`max_daily_dose_mg` key or `alternatives` key referencing an unknown drug —
so every constructed `DrugDB` satisfies this predicate.  Canonical names
are clean identifiers: nonempty and free of surrounding whitespace. -/
@[reducible] def WellFormed (db : DrugDB) : Prop :=
  (∀ d ∈ db.drugs, stripStr (lowerStr d.name) = lowerStr d.name) ∧
  (∀ d ∈ db.drugs, d.name ≠ "") ∧
  db.drugs.Pairwise (fun d e => lowerStr d.name ≠ lowerStr e.name) ∧
  (∀ e ∈ db.drugs, ∀ a ∈ e.aliases, ∀ d ∈ db.drugs,
    lowerStr a = lowerStr d.name → d.name = e.name) ∧
  (∀ it ∈ db.interactions,
    (∃ d ∈ db.drugs, d.name = it.pair.1) ∧ (∃ d ∈ db.drugs, d.name = it.pair.2)) ∧
  (∀ p ∈ db.max_daily_dose_mg, ∃ d ∈ db.drugs, d.name = p.1) ∧
  (∀ p ∈ db.alternatives, ∃ d ∈ db.drugs, d.name = p.1)

/-! ### Auxiliary definitions for the analysis -/

/-- The sequence of `(a, b)` pairs visited by the nested loops of
`interactions_for`, in visiting order. -/
def pairsSeq (drugs : List String) : List (String × String) :=
  drugs.flatMap (fun a => drugs.map (fun b => (a, b)))

/-- One iteration of the inner loop body of `interactions_for`, on the
visited pair. -/
def pairStep (db : DrugDB)
    (acc : List (String × String) × List Interaction) (ab : String × String) :
    List (String × String) × List Interaction :=
  if strLt ab.1 ab.2 then
    if ab ∈ acc.1 then acc
    else (ab :: acc.1, acc.2 ++ matchingInteractions db ab.1 ab.2)
  else acc

/-- The keys the loop adds to the seen-set, given current seen-set `seen`:
valid (`a < b`) and not yet seen, in visiting order. -/
def newKeys (seen : List (String × String)) :
    List (String × String) → List (String × String)
  | [] => []
  | ab :: L =>
    if strLt ab.1 ab.2 ∧ ab ∉ seen then ab :: newKeys (ab :: seen) L
    else newKeys seen L

/-- The deduplicated valid key list of a query, in visiting order. -/
def pairKeys (drugs : List String) : List (String × String) :=
  newKeys [] (pairsSeq drugs)

/-- The claim's literal reading of `normalize`: first record whose name or an
alias matches the raw input case-insensitively, with no whitespace
stripping.  Stated from the spec's words, for comparison with the source's
`normalize`. -/
def normalizeSpecLiteral (db : DrugDB) (name : String) : Option String :=
  (db.drugs.find? (fun d =>
    lowerStr d.name = lowerStr name ∨ lowerStr name ∈ d.aliases.map lowerStr)).map
    (fun d => d.name)

/-- A well-formed database whose configured daily maximum for its only drug
is the integer 0 for every bracket. -/
def zeroMaxDB : DrugDB :=
  { drugs := [⟨"Apixan", some "1mg daily", some "1mg daily", []⟩],
    max_daily_dose_mg := [("Apixan", ⟨some 0, some 0⟩)],
    interactions := [],
    alternatives := [] }

/-- A well-formed database with two interaction records, used to observe the
output order of `interactions_for`. -/
def orderDB : DrugDB :=
  { drugs :=
      [ ⟨"Amio", some "a", some "a", []⟩,
        ⟨"Bupro", some "b", some "b", []⟩,
        ⟨"Cipro", some "c", some "c", []⟩ ],
    max_daily_dose_mg := [],
    interactions :=
      [ ⟨("Amio", "Bupro"), "minor", "ab"⟩,
        ⟨("Bupro", "Cipro"), "major", "bc"⟩ ],
    alternatives := [] }

/-- Modelled from the spec: the sorted-tuple key of an unordered pair, for
the load-time interaction index. -/
def sortedKey (x y : String) : String × String :=
  if strLt x y then (x, y) else (y, x)

/-- Modelled from the spec: the index built at load time, mapping the
unordered pair key of each interaction record to the record. -/
def specPairIndex (db : DrugDB) : List ((String × String) × Interaction) :=
  db.interactions.foldl
    (fun acc it => dictInsert acc (sortedKey it.pair.1 it.pair.2) it) []

/-- Modelled from the spec: `interactionsAmong` answering each pair query by
consulting the load-time index instead of scanning the interaction table. -/
def specInteractionsAmong (db : DrugDB) (drugs : List String) : List Interaction :=
  (pairKeys drugs).filterMap (fun ab => dictLookup (specPairIndex db) ab)

example : WellFormed exampleDB := by decide

example : normalize exampleDB "acetaminophen" = some "Paracetamol" := by decide
example : normalize exampleDB "  WARFARIN " = some "Warfarin" := by decide

/-! ### Association-list lemmas -/

theorem dictLookup_eq_none_of_not_any {κ α : Type} [DecidableEq κ]
    (m : List (κ × α)) (k : κ) (h : m.any (fun p => p.1 = k) = false) :
    dictLookup m k = none := by
  induction m with
  | nil => rfl
  | cons p rest ih =>
    simp only [List.any_cons, Bool.or_eq_false_iff, decide_eq_false_iff_not] at h
    simp only [dictLookup, if_neg h.1]
    exact ih h.2

theorem dictLookup_overwrite {κ α : Type} [DecidableEq κ]
    (m : List (κ × α)) (k : κ) (v : α) (k' : κ) :
    dictLookup (m.map (fun p => if p.1 = k then (k, v) else p)) k' =
      if k' = k then (if m.any (fun p => p.1 = k) then some v else none)
      else dictLookup m k' := by
  induction m with
  | nil => simp [dictLookup]
  | cons p rest ih =>
    by_cases hp : p.1 = k
    · by_cases hk : k' = k
      · subst hk; simp [dictLookup, hp]
      · have hkk : ¬ (k = k') := fun h => hk h.symm
        simp [dictLookup, hp, hkk, ih, hk]
    · by_cases hpk : p.1 = k'
      · have hk : ¬ (k' = k) := fun h => hp (h ▸ hpk)
        simp [dictLookup, hp, hpk, hk]
      · have hd : (decide (p.1 = k)) = false := by simp [hp]
        rw [List.map_cons, if_neg hp]
        simp only [dictLookup, if_neg hpk]
        rw [ih, List.any_cons, hd, Bool.false_or]

theorem dictLookup_append_single {κ α : Type} [DecidableEq κ]
    (m : List (κ × α)) (k : κ) (v : α) (k' : κ) :
    dictLookup (m ++ [(k, v)]) k' =
      match dictLookup m k' with
      | some w => some w
      | none => if k' = k then some v else none := by
  induction m with
  | nil =>
    by_cases hk : k = k'
    · subst hk; simp [dictLookup]
    · have : ¬ (k' = k) := fun h => hk h.symm
      simp [dictLookup, if_neg hk, if_neg this]
  | cons p rest ih =>
    by_cases hp : p.1 = k'
    · simp [dictLookup, hp]
    · rw [List.cons_append]
      simp only [dictLookup, if_neg hp]
      exact ih

theorem dictLookup_dictInsert {κ α : Type} [DecidableEq κ]
    (m : List (κ × α)) (k : κ) (v : α) (k' : κ) :
    dictLookup (dictInsert m k v) k' = if k' = k then some v else dictLookup m k' := by
  unfold dictInsert
  by_cases h : m.any (fun p => p.1 = k)
  · rw [if_pos h, dictLookup_overwrite, h]
    by_cases hk : k' = k <;> simp [hk]
  · rw [if_neg h, dictLookup_append_single]
    have hf : m.any (fun p => p.1 = k) = false := by
      revert h; cases m.any (fun p => p.1 = k) <;> simp
    have hnone : dictLookup m k = none := dictLookup_eq_none_of_not_any m k hf
    by_cases hk : k' = k
    · subst hk; simp [hnone]
    · cases hm : dictLookup m k' <;> simp [hk]

theorem dictOf_go {α : Type} (f : String → α) (keys : List String)
    (acc : List (String × α)) (k : String) :
    dictLookup (keys.foldl (fun m x => dictInsert m x (f x)) acc) k =
      if k ∈ keys then some (f k) else dictLookup acc k := by
  induction keys generalizing acc with
  | nil => simp
  | cons x ks ih =>
    simp only [List.foldl_cons, ih, dictLookup_dictInsert, List.mem_cons]
    by_cases hks : k ∈ ks
    · simp [hks]
    · by_cases hx : k = x <;> simp [hx, hks]

theorem dictLookup_dictOf {α : Type} (keys : List String) (f : String → α) (k : String) :
    dictLookup (dictOf keys f) k = if k ∈ keys then some (f k) else none := by
  simpa [dictOf] using dictOf_go f keys [] k

/-! ### Decomposition of `Analyzer.check` -/

theorem checkLoop_fst (db : DrugDB) (age : Nat) (items : List DrugEntry)
    (acc : List (String × Guidance) × List DoseWarning) :
    (checkLoop db age items acc).1 =
      (items.map (fun i => i.drug)).foldl
        (fun m nm =>
          dictInsert m nm ⟨default_dose_for_age db nm age, max_daily_mg db nm age⟩)
        acc.1 := by
  induction items generalizing acc with
  | nil => rfl
  | cons e rest ih => simp only [checkLoop, List.foldl_cons, List.map_cons] at *; exact ih _

theorem checkLoop_snd (db : DrugDB) (age : Nat) (items : List DrugEntry)
    (acc : List (String × Guidance) × List DoseWarning) :
    (checkLoop db age items acc).2 = acc.2 ++ items.filterMap (warnFor db age) := by
  induction items generalizing acc with
  | nil => simp [checkLoop]
  | cons e rest ih =>
    simp only [checkLoop, List.foldl_cons] at *
    rw [ih]
    cases h : warnFor db age e <;> simp [List.filterMap_cons, h, Option.toList]

theorem check_warnings (db : DrugDB) (items : List DrugEntry) (age : Nat) :
    (check db items age).warnings = items.filterMap (warnFor db age) := by
  simpa [check] using checkLoop_snd db age items ([], [])

theorem check_guidance_lookup (db : DrugDB) (items : List DrugEntry) (age : Nat)
    (nm : String) :
    dictLookup (check db items age).dosage_guidance nm =
      if nm ∈ items.map (fun i => i.drug) then
        some ⟨default_dose_for_age db nm age, max_daily_mg db nm age⟩
      else none := by
  show dictLookup (checkLoop db age items ([], [])).1 nm = _
  rw [checkLoop_fst]
  simpa using dictOf_go
    (fun nm => (⟨default_dose_for_age db nm age, max_daily_mg db nm age⟩ : Guidance))
    (items.map (fun i => i.drug)) [] nm

theorem check_alternatives_lookup (db : DrugDB) (items : List DrugEntry) (age : Nat)
    (nm : String) :
    dictLookup (check db items age).alternatives nm =
      if nm ∈ items.map (fun i => i.drug) then some (alternatives db nm) else none := by
  show dictLookup ((items.map (fun i => i.drug)).foldl
      (fun acc nm => dictInsert acc nm (alternatives db nm)) []) nm = _
  simpa using dictOf_go (alternatives db) (items.map (fun i => i.drug)) [] nm

/-! ### Analysis of `interactions_for` -/

theorem foldl_flatMap' {α β γ : Type} (l : List α) (f : α → List β) (g : γ → β → γ)
    (init : γ) :
    (l.flatMap f).foldl g init = l.foldl (fun acc a => (f a).foldl g acc) init := by
  induction l generalizing init with
  | nil => rfl
  | cons a rest ih => simp [List.flatMap_cons, List.foldl_append, ih]

theorem interactionsLoop_eq_foldl (db : DrugDB) (drugs : List String)
    (acc : List (String × String) × List Interaction) :
    interactionsLoop db drugs acc = (pairsSeq drugs).foldl (pairStep db) acc := by
  rw [pairsSeq, foldl_flatMap']
  unfold interactionsLoop
  congr 1
  funext acc' a
  rw [List.foldl_map]
  rfl

theorem foldl_pairStep (db : DrugDB) (L : List (String × String))
    (seen : List (String × String)) (out : List Interaction) :
    L.foldl (pairStep db) (seen, out) =
      ((newKeys seen L).reverse ++ seen,
        out ++ (newKeys seen L).flatMap (fun ab => matchingInteractions db ab.1 ab.2)) := by
  induction L generalizing seen out with
  | nil => simp [newKeys]
  | cons ab L ih =>
    by_cases h1 : strLt ab.1 ab.2
    · by_cases h2 : ab ∈ seen
      · have hc : ¬ (strLt ab.1 ab.2 ∧ ab ∉ seen) := fun h => h.2 h2
        simp only [List.foldl_cons, pairStep, if_pos h1, if_pos h2, newKeys, if_neg hc]
        exact ih seen out
      · have hc : strLt ab.1 ab.2 ∧ ab ∉ seen := ⟨h1, h2⟩
        simp only [List.foldl_cons, pairStep, if_pos h1, if_neg h2, newKeys, if_pos hc]
        rw [ih (ab :: seen) (out ++ matchingInteractions db ab.1 ab.2)]
        simp [List.flatMap_cons, List.append_assoc]
    · have hc : ¬ (strLt ab.1 ab.2 ∧ ab ∉ seen) := fun h => h1 h.1
      simp only [List.foldl_cons, pairStep, if_neg h1, newKeys, if_neg hc]
      exact ih seen out

theorem interactions_for_eq_flatMap (db : DrugDB) (drugs : List String) :
    interactions_for db drugs =
      (pairKeys drugs).flatMap (fun ab => matchingInteractions db ab.1 ab.2) := by
  unfold interactions_for pairKeys
  rw [interactionsLoop_eq_foldl, foldl_pairStep]
  simp

theorem mem_newKeys (L : List (String × String)) (seen : List (String × String))
    (ab : String × String) :
    ab ∈ newKeys seen L ↔ ab ∈ L ∧ strLt ab.1 ab.2 ∧ ab ∉ seen := by
  induction L generalizing seen with
  | nil => simp [newKeys]
  | cons k L ih =>
    by_cases hc : strLt k.1 k.2 ∧ k ∉ seen
    · simp only [newKeys, if_pos hc, List.mem_cons, ih]
      by_cases hk : ab = k
      · subst hk; tauto
      · tauto
    · simp only [newKeys, if_neg hc, ih, List.mem_cons]
      by_cases hk : ab = k
      · subst hk; tauto
      · tauto

theorem nodup_newKeys (L : List (String × String)) (seen : List (String × String)) :
    (newKeys seen L).Nodup ∧ ∀ k ∈ newKeys seen L, k ∉ seen := by
  induction L generalizing seen with
  | nil => simp [newKeys]
  | cons k L ih =>
    by_cases hc : strLt k.1 k.2 ∧ k ∉ seen
    · obtain ⟨hnd, hout⟩ := ih (k :: seen)
      rw [newKeys, if_pos hc]
      constructor
      · exact List.nodup_cons.2
          ⟨fun hk => (hout k hk) (List.mem_cons_self k seen), hnd⟩
      · intro x hx
        rcases List.mem_cons.1 hx with rfl | hx'
        · exact hc.2
        · exact fun hs => hout x hx' (List.mem_cons.2 (Or.inr hs))
    · rw [newKeys, if_neg hc]
      exact ih seen

theorem mem_pairsSeq (drugs : List String) (ab : String × String) :
    ab ∈ pairsSeq drugs ↔ ab.1 ∈ drugs ∧ ab.2 ∈ drugs := by
  obtain ⟨a, b⟩ := ab
  simp only [pairsSeq, List.mem_flatMap, List.mem_map, Prod.mk.injEq]
  constructor
  · rintro ⟨x, hx, y, hy, rfl, rfl⟩
    exact ⟨hx, hy⟩
  · rintro ⟨ha, hb⟩
    exact ⟨a, ha, b, hb, rfl, rfl⟩

theorem mem_pairKeys (drugs : List String) (ab : String × String) :
    ab ∈ pairKeys drugs ↔ ab.1 ∈ drugs ∧ ab.2 ∈ drugs ∧ strLt ab.1 ab.2 := by
  rw [pairKeys, mem_newKeys, mem_pairsSeq]
  simp [and_assoc, and_comm]

theorem nodup_pairKeys (drugs : List String) : (pairKeys drugs).Nodup :=
  (nodup_newKeys (pairsSeq drugs) []).1

theorem pairKeys_perm (l l' : List String) (h : ∀ x, x ∈ l ↔ x ∈ l') :
    List.Perm (pairKeys l) (pairKeys l') :=
  (List.perm_ext_iff_of_nodup (nodup_pairKeys l) (nodup_pairKeys l')).2
    (fun ab => by simp [mem_pairKeys, h])

theorem charListLt_irrefl (l : List Char) : charListLt l l = false := by
  induction l with
  | nil => rfl
  | cons a as ih => simp [charListLt, ih]

theorem charListLt_asymm (l₁ l₂ : List Char) (h : charListLt l₁ l₂ = true) :
    charListLt l₂ l₁ = false := by
  induction l₁ generalizing l₂ with
  | nil => cases l₂ with
    | nil => rfl
    | cons b bs => rfl
  | cons a as ih =>
    cases l₂ with
    | nil => exact absurd h (by simp [charListLt])
    | cons b bs =>
      by_cases hab : a.toNat < b.toNat
      · have hba : ¬ b.toNat < a.toNat := Nat.lt_asymm hab
        simp [charListLt, hab, hba]
      · by_cases hba : b.toNat < a.toNat
        · simp [charListLt, hab, hba] at h
        · simp only [charListLt, if_neg hab, if_neg hba] at h
          simp only [charListLt, if_neg hba, if_neg hab]
          exact ih bs h

theorem strLt_ne {a b : String} (h : strLt a b = true) : a ≠ b := by
  intro he
  subst he
  rw [strLt, charListLt_irrefl] at h
  exact Bool.false_ne_true h

theorem strLt_asymm {a b : String} (h : strLt a b = true) : strLt b a = false :=
  charListLt_asymm a.data b.data h

/-- With `a < b`, the set test `set(p) == set([a, b])` holds exactly when the
pair is `(a, b)` or `(b, a)`. -/
theorem pySetEq2_cases {p : String × String} {a b : String} (hab : a ≠ b)
    (h : pySetEq2 p a b = true) :
    (p.1 = a ∧ p.2 = b) ∨ (p.1 = b ∧ p.2 = a) := by
  have h' : (p.1 = a ∨ p.1 = b) ∧ (p.2 = a ∨ p.2 = b) ∧
      (a = p.1 ∨ a = p.2) ∧ (b = p.1 ∨ b = p.2) := by
    simpa [pySetEq2] using h
  obtain ⟨h1, h2, h3, h4⟩ := h'
  rcases h1 with h1 | h1
  · rcases h2 with h2 | h2
    · rcases h4 with h4 | h4
      · exact absurd (h1.symm ▸ h4.symm : a = b).symm (Ne.symm hab)
      · exact absurd (h2.symm ▸ h4.symm : a = b).symm (Ne.symm hab)
    · exact Or.inl ⟨h1, h2⟩
  · rcases h2 with h2 | h2
    · exact Or.inr ⟨h1, h2⟩
    · rcases h3 with h3 | h3
      · exact absurd (h1.symm ▸ h3 : a = b) hab
      · exact absurd (h2.symm ▸ h3 : a = b) hab

theorem mem_matchingInteractions {db : DrugDB} {a b : String} {it : Interaction} :
    it ∈ matchingInteractions db a b ↔ it ∈ db.interactions ∧ pySetEq2 it.pair a b := by
  simp [matchingInteractions, List.mem_filter]

/-- Two distinct valid keys select disjoint sets of interaction records. -/
theorem matching_disjoint (db : DrugDB) {k₁ k₂ : String × String}
    (h₁ : strLt k₁.1 k₁.2 = true) (h₂ : strLt k₂.1 k₂.2 = true) (hne : k₁ ≠ k₂) :
    List.Disjoint (matchingInteractions db k₁.1 k₁.2)
      (matchingInteractions db k₂.1 k₂.2) := by
  intro it hit₁ hit₂
  have hp₁ := pySetEq2_cases (strLt_ne h₁) (mem_matchingInteractions.1 hit₁).2
  have hp₂ := pySetEq2_cases (strLt_ne h₂) (mem_matchingInteractions.1 hit₂).2
  apply hne
  rcases hp₁ with ⟨ha₁, hb₁⟩ | ⟨ha₁, hb₁⟩ <;> rcases hp₂ with ⟨ha₂, hb₂⟩ | ⟨ha₂, hb₂⟩
  · exact Prod.ext (by rw [← ha₁, ha₂]) (by rw [← hb₁, hb₂])
  · exfalso
    have e1 : strLt it.pair.1 it.pair.2 = true := by rw [ha₁, hb₁]; exact h₁
    have e2 : strLt it.pair.2 it.pair.1 = true := by rw [ha₂, hb₂]; exact h₂
    rw [strLt_asymm e1] at e2
    exact Bool.false_ne_true e2
  · exfalso
    have e1 : strLt it.pair.2 it.pair.1 = true := by rw [ha₁, hb₁]; exact h₁
    have e2 : strLt it.pair.1 it.pair.2 = true := by rw [ha₂, hb₂]; exact h₂
    rw [strLt_asymm e1] at e2
    exact Bool.false_ne_true e2
  · exact Prod.ext (by rw [← hb₁, hb₂]) (by rw [← ha₁, ha₂])

theorem interactions_for_nodup (db : DrugDB) (drugs : List String)
    (hn : db.interactions.Nodup) : (interactions_for db drugs).Nodup := by
  rw [interactions_for_eq_flatMap]
  refine List.nodup_flatMap.2 ⟨fun k _ => hn.filter _, ?_⟩
  have hvalid : ∀ k ∈ pairKeys drugs, strLt k.1 k.2 = true :=
    fun k hk => ((mem_pairKeys drugs k).1 hk).2.2
  have hnd := nodup_pairKeys drugs
  refine List.Pairwise.imp_of_mem ?_ hnd
  intro k₁ k₂ h₁ h₂ hne
  exact matching_disjoint db (hvalid k₁ h₁) (hvalid k₂ h₂) hne

theorem interactions_for_subset (db : DrugDB) (drugs : List String)
    {it : Interaction} (h : it ∈ interactions_for db drugs) : it ∈ db.interactions := by
  rw [interactions_for_eq_flatMap] at h
  obtain ⟨k, _, hk⟩ := List.mem_flatMap.1 h
  exact (mem_matchingInteractions.1 hk).1

theorem interactions_for_pair_ne (db : DrugDB) (drugs : List String)
    {it : Interaction} (h : it ∈ interactions_for db drugs) :
    it.pair.1 ≠ it.pair.2 := by
  rw [interactions_for_eq_flatMap] at h
  obtain ⟨k, hkmem, hk⟩ := List.mem_flatMap.1 h
  have hlt : strLt k.1 k.2 = true := ((mem_pairKeys drugs k).1 hkmem).2.2
  rcases pySetEq2_cases (strLt_ne hlt) (mem_matchingInteractions.1 hk).2 with
    ⟨h1, h2⟩ | ⟨h1, h2⟩
  · rw [h1, h2]; exact strLt_ne hlt
  · rw [h1, h2]; exact (strLt_ne hlt).symm

theorem interactions_for_perm (db : DrugDB) (l l' : List String)
    (h : ∀ x, x ∈ l ↔ x ∈ l') :
    List.Perm (interactions_for db l) (interactions_for db l') := by
  rw [interactions_for_eq_flatMap, interactions_for_eq_flatMap]
  exact List.Perm.flatMap_right _ (pairKeys_perm l l' h)

/-! ### Analysis of `normalize` -/

theorem normalizeFrom_eq_none (n : String) (L : List DrugRecord)
    (h : normalizeFrom n L = none) :
    ∀ d ∈ L, ¬ (lowerStr d.name = n ∨ n ∈ d.aliases.map lowerStr) := by
  induction L with
  | nil => intro d hd; cases hd
  | cons d rest ih =>
    by_cases hd : lowerStr d.name = n ∨ n ∈ d.aliases.map lowerStr
    · rw [normalizeFrom, if_pos hd] at h
      cases h
    · rw [normalizeFrom, if_neg hd] at h
      intro d' hd'
      rcases List.mem_cons.1 hd' with rfl | hrest
      · exact hd
      · exact ih h d' hrest

theorem normalizeFrom_eq_some (n : String) (L : List DrugRecord) (c : String)
    (h : normalizeFrom n L = some c) :
    ∃ d ∈ L, d.name = c ∧ (lowerStr d.name = n ∨ n ∈ d.aliases.map lowerStr) := by
  induction L with
  | nil => exact absurd h (by simp [normalizeFrom])
  | cons d rest ih =>
    by_cases hd : lowerStr d.name = n ∨ n ∈ d.aliases.map lowerStr
    · rw [normalizeFrom, if_pos hd, Option.some_inj] at h
      exact ⟨d, List.mem_cons_self d rest, h, hd⟩
    · rw [normalizeFrom, if_neg hd] at h
      obtain ⟨e, he, hn, hm⟩ := ih h
      exact ⟨e, List.mem_cons.2 (Or.inr he), hn, hm⟩

/-- Scanning for the lowered name of a record returns that record's name,
given the load-time uniqueness and alias-collision guarantees. -/
theorem normalizeFrom_self (L : List DrugRecord) (d : DrugRecord) (hd : d ∈ L)
    (hpw : L.Pairwise (fun d e => lowerStr d.name ≠ lowerStr e.name))
    (halias : ∀ e ∈ L, ∀ a ∈ e.aliases, ∀ d' ∈ L,
      lowerStr a = lowerStr d'.name → d'.name = e.name) :
    normalizeFrom (lowerStr d.name) L = some d.name := by
  induction L with
  | nil => cases hd
  | cons e rest ih =>
    by_cases hmatch : lowerStr e.name = lowerStr d.name ∨
        lowerStr d.name ∈ e.aliases.map lowerStr
    · rw [normalizeFrom, if_pos hmatch]
      rcases hmatch with hname | halia
      · rcases List.mem_cons.1 hd with rfl | hdrest
        · rfl
        · exact absurd hname ((List.pairwise_cons.1 hpw).1 d hdrest)
      · obtain ⟨a, ha, hal⟩ := List.mem_map.1 halia
        have := halias e (List.mem_cons_self e rest) a ha d hd hal
        rw [this]
    · have hdrest : d ∈ rest := by
        rcases List.mem_cons.1 hd with rfl | hdrest
        · exact absurd (Or.inl rfl) hmatch
        · exact hdrest
      rw [normalizeFrom, if_neg hmatch]
      exact ih hdrest (List.pairwise_cons.1 hpw).2
        (fun e' he' a ha d' hd' => halias e' (List.mem_cons.2 (Or.inr he')) a ha d'
          (List.mem_cons.2 (Or.inr hd')))

theorem dictLookup_eq_none_of_forall {κ α : Type} [DecidableEq κ]
    (m : List (κ × α)) (k : κ) (h : ∀ p ∈ m, p.1 ≠ k) : dictLookup m k = none := by
  induction m with
  | nil => rfl
  | cons p rest ih =>
    rw [dictLookup, if_neg (h p (List.mem_cons_self p rest))]
    exact ih (fun q hq => h q (List.mem_cons.2 (Or.inr hq)))

/-- A name that fails to normalize matches no record name, no
`max_daily_dose_mg` key, no `alternatives` key, and no interaction pair of a
well-formed database. -/
theorem unknown_name_lookups (db : DrugDB) (wf : WellFormed db) (nm : String)
    (h : normalize db nm = none) :
    findRecord db nm = none ∧
    dictLookup db.max_daily_dose_mg nm = none ∧
    dictLookup db.alternatives nm = none ∧
    ∀ it ∈ db.interactions, it.pair.1 ≠ nm ∧ it.pair.2 ≠ nm := by
  obtain ⟨hclean, -, -, -, hint, hmax, halts⟩ := wf
  have hnone := normalizeFrom_eq_none _ _ h
  have hno : ∀ d ∈ db.drugs, d.name ≠ nm := by
    intro d hdm hdn
    apply hnone d hdm
    left
    subst hdn
    exact (hclean d hdm).symm
  refine ⟨?_, ?_, ?_, ?_⟩
  · rw [findRecord, List.find?_eq_none]
    intro d hdm
    simp [hno d hdm]
  · exact dictLookup_eq_none_of_forall _ _ (fun p hp => by
      obtain ⟨d, hdm, hdn⟩ := hmax p hp
      exact hdn ▸ hno d hdm)
  · exact dictLookup_eq_none_of_forall _ _ (fun p hp => by
      obtain ⟨d, hdm, hdn⟩ := halts p hp
      exact hdn ▸ hno d hdm)
  · intro it hit
    obtain ⟨⟨d₁, hd₁, he₁⟩, ⟨d₂, hd₂, he₂⟩⟩ := hint it hit
    exact ⟨he₁ ▸ hno d₁ hd₁, he₂ ▸ hno d₂ hd₂⟩

theorem normalizeFrom_eq_findFirst (n : String) (L : List DrugRecord) :
    normalizeFrom n L =
      (L.find? (fun d => lowerStr d.name = n ∨ n ∈ d.aliases.map lowerStr)).map
        (fun d => d.name) := by
  induction L with
  | nil => rfl
  | cons d rest ih =>
    by_cases hd : lowerStr d.name = n ∨ n ∈ d.aliases.map lowerStr
    · rw [normalizeFrom, if_pos hd, List.find?_cons_of_pos _ (by simpa using hd)]
      rfl
    · rw [normalizeFrom, if_neg hd, List.find?_cons_of_neg _ (by simpa using hd)]
      exact ih
example : normalize exampleDB "aspirin" = none := by decide
example : default_dose_for_age exampleDB "Paracetamol" 8 = some "250mg q6h" := by decide
example : default_dose_for_age exampleDB "Paracetamol" 30 = some "500mg q6h" := by decide
example : max_daily_mg exampleDB "Paracetamol" 8 = some 2000 := by decide
example : interactions_for exampleDB ["Warfarin", "Paracetamol"] =
    [⟨("Paracetamol", "Warfarin"), "moderate", "may increase bleeding risk"⟩] := by decide
example : interactions_for exampleDB ["Paracetamol", "Warfarin", "Paracetamol"] =
    [⟨("Paracetamol", "Warfarin"), "moderate", "may increase bleeding risk"⟩] := by decide

/-! ### Analysis of the warning test -/

theorem totalMg_eq_some_iff (e : DrugEntry) (t : Nat) :
    totalMg e = some t ↔
      ∃ d f, e.dose_mg = some d ∧ 0 < d ∧ e.frequency_per_day = some f ∧ 0 < f ∧
        t = d * f := by
  rcases hd : e.dose_mg with _ | d
  · simp [totalMg, hd]
  · rcases hf : e.frequency_per_day with _ | f
    · simp [totalMg, hd, hf]
    · by_cases hdf : d ≠ 0 ∧ f ≠ 0
      · simp only [totalMg, hd, hf, if_pos hdf, Option.some_inj]
        constructor
        · intro h
          exact ⟨d, f, rfl, Nat.pos_of_ne_zero hdf.1, rfl,
            Nat.pos_of_ne_zero hdf.2, h.symm⟩
        · rintro ⟨d', f', hdd, -, hff, -, rfl⟩
          rw [hdd, hff]
      · simp only [totalMg, hd, hf, if_neg hdf, Option.some_inj]
        constructor
        · intro h; cases h
        · rintro ⟨d', f', hdd, hd0, hff, hf0, rfl⟩
          subst hdd; subst hff
          exact absurd ⟨Nat.pos_iff_ne_zero.1 hd0, Nat.pos_iff_ne_zero.1 hf0⟩ hdf

theorem totalMg_ne_zero (e : DrugEntry) (t : Nat) (h : totalMg e = some t) :
    t ≠ 0 := by
  obtain ⟨d, f, -, hd0, -, hf0, rfl⟩ := (totalMg_eq_some_iff e t).1 h
  exact Nat.pos_iff_ne_zero.1 (Nat.mul_pos hd0 hf0)

theorem warnFor_eq_some_iff (db : DrugDB) (age : Nat) (e : DrugEntry)
    (w : DoseWarning) :
    warnFor db age e = some w ↔
      ∃ t m, totalMg e = some t ∧ max_daily_mg db e.drug age = some m ∧
        0 < m ∧ m < t ∧
        w = ⟨e.drug, "Dose exceeds max daily limit", t, m⟩ := by
  rcases ht : totalMg e with _ | t
  · simp [warnFor, ht]
  · rcases hm : max_daily_mg db e.drug age with _ | m
    · simp [warnFor, ht, hm]
    · have ht0 : t ≠ 0 := totalMg_ne_zero e t ht
      by_cases hm0 : m = 0
      · subst hm0
        simp [warnFor, ht, hm]
      · by_cases hgt : m < t
        · have hcond : t ≠ 0 ∧ m ≠ 0 ∧ t > m := ⟨ht0, hm0, hgt⟩
          simp only [warnFor, ht, hm, if_pos hcond, Option.some_inj]
          constructor
          · intro h
            exact ⟨t, m, rfl, rfl, Nat.pos_of_ne_zero hm0, hgt, h.symm⟩
          · rintro ⟨t', m', htt, hmm, -, -, rfl⟩
            rw [htt, hmm]
        · have hcond : ¬ (t ≠ 0 ∧ m ≠ 0 ∧ t > m) := fun hc => hgt hc.2.2
          simp only [warnFor, ht, hm, if_neg hcond, Option.some_inj]
          constructor
          · intro h; cases h
          · rintro ⟨t', m', htt, hmm, -, hlt, rfl⟩
            subst htt; subst hmm
            exact absurd hlt hgt

/-! ### Claim theorems -/

/-- C10: for every database, entry list and age, the `drugs_parsed` field of
the result of `check` is exactly the input entry list — same entries, same
order, no field modified, added or removed. -/
theorem check_preserves_entries (db : DrugDB) (items : List DrugEntry) (age : Nat) :
    (check db items age).drugs_parsed = items := rfl

/-- C7: on a well-formed database, normalization is idempotent on its own
outputs: whenever `normalize x` is defined, normalizing its result returns
the same canonical name. -/
theorem normalize_idempotent (db : DrugDB) (wf : WellFormed db) (x c : String)
    (h : normalize db x = some c) : normalize db c = some c := by
  obtain ⟨hclean, -, hpw, halias, -, -, -⟩ := wf
  obtain ⟨d, hdm, rfl, -⟩ := normalizeFrom_eq_some _ _ _ h
  rw [normalize, hclean d hdm]
  exact normalizeFrom_self db.drugs d hdm hpw halias

/-- Witness for C7 at the example dataset and input "acetaminophen". -/
theorem normalize_idempotent_witness :
    WellFormed exampleDB ∧
    normalize exampleDB "acetaminophen" = some "Paracetamol" ∧
    normalize exampleDB "Paracetamol" = some "Paracetamol" :=
  ⟨by decide, by decide,
    normalize_idempotent exampleDB (by decide) "acetaminophen" "Paracetamol" (by decide)⟩

/-- C6: on a well-formed database, an entry whose drug name fails to
normalize gets `none` recommended dose and `none` max daily mg in the
dosage guidance, an empty alternatives list, appears in no interaction
record of the result, and still appears in the returned entry list. -/
theorem check_unknown_drug (db : DrugDB) (wf : WellFormed db)
    (items : List DrugEntry) (age : Nat) (e : DrugEntry) (he : e ∈ items)
    (h : normalize db e.drug = none) :
    dictLookup (check db items age).dosage_guidance e.drug = some ⟨none, none⟩ ∧
    dictLookup (check db items age).alternatives e.drug = some [] ∧
    (∀ it ∈ (check db items age).interactions,
      it.pair.1 ≠ e.drug ∧ it.pair.2 ≠ e.drug) ∧
    e ∈ (check db items age).drugs_parsed := by
  obtain ⟨hfind, hmaxl, haltl, hpairs⟩ := unknown_name_lookups db wf e.drug h
  have hmem : e.drug ∈ items.map (fun i => i.drug) := List.mem_map_of_mem _ he
  refine ⟨?_, ?_, ?_, ?_⟩
  · rw [check_guidance_lookup, if_pos hmem]
    have h1 : default_dose_for_age db e.drug age = none := by
      simp [default_dose_for_age, hfind]
    have h2 : max_daily_mg db e.drug age = none := by
      simp [max_daily_mg, hmaxl]
    rw [h1, h2]
  · rw [check_alternatives_lookup, if_pos hmem]
    rw [alternatives, haltl]
    rfl
  · intro it hit
    have hck : (check db items age).interactions =
        interactions_for db (items.map (fun i => i.drug)) := rfl
    rw [hck] at hit
    exact hpairs it (interactions_for_subset db (items.map (fun i => i.drug)) hit)
  · exact he

/-- Witness for C6 at the example dataset and the unresolvable entry
"Unknownium". -/
theorem check_unknown_drug_witness :
    WellFormed exampleDB ∧
    normalize exampleDB "Unknownium" = none ∧
    (dictLookup (check exampleDB [⟨"Unknownium", some 10, some 2⟩] 30).dosage_guidance
        "Unknownium" = some ⟨none, none⟩ ∧
      dictLookup (check exampleDB [⟨"Unknownium", some 10, some 2⟩] 30).alternatives
        "Unknownium" = some [] ∧
      (∀ it ∈ (check exampleDB [⟨"Unknownium", some 10, some 2⟩] 30).interactions,
        it.pair.1 ≠ "Unknownium" ∧ it.pair.2 ≠ "Unknownium") ∧
      (⟨"Unknownium", some 10, some 2⟩ : DrugEntry) ∈
        (check exampleDB [⟨"Unknownium", some 10, some 2⟩] 30).drugs_parsed) :=
  ⟨by decide, by decide,
    check_unknown_drug exampleDB (by decide) [⟨"Unknownium", some 10, some 2⟩] 30
      ⟨"Unknownium", some 10, some 2⟩ (by decide) (by decide)⟩

/-- C2 (amended): for inputs with the same names, the interaction results
are permutations of one another (same records, same count — so duplicates
in the input change nothing); on a duplicate-free interaction table each
record appears at most once; every output record is a record of the table;
self-pairs are excluded.  The output *order*, however, follows the input
order, so two permutations of the input can produce differently ordered
result lists (see the counterexample). -/
theorem interactions_for_invariance (db : DrugDB) (l l' : List String)
    (h₁ : ∀ x ∈ l, x ∈ l') (h₂ : ∀ x ∈ l', x ∈ l)
    (hn : db.interactions.Nodup) :
    List.Perm (interactions_for db l) (interactions_for db l') ∧
    (interactions_for db l).Nodup ∧
    (∀ it ∈ interactions_for db l, it ∈ db.interactions) ∧
    (∀ it ∈ interactions_for db l, it.pair.1 ≠ it.pair.2) :=
  ⟨interactions_for_perm db l l' (fun x => ⟨fun hx => h₁ x hx, fun hx => h₂ x hx⟩),
    interactions_for_nodup db l hn,
    fun _ hit => interactions_for_subset db l hit,
    fun _ hit => interactions_for_pair_ne db l hit⟩

/-- Witness for C2 at the example dataset: Warfarin/Paracetamol in either
order, with a duplicate, yield a permutation-equal result. -/
theorem interactions_for_invariance_witness :
    List.Perm (interactions_for exampleDB ["Warfarin", "Paracetamol"])
      (interactions_for exampleDB ["Paracetamol", "Warfarin", "Paracetamol"]) ∧
    (interactions_for exampleDB ["Warfarin", "Paracetamol"]).Nodup ∧
    (∀ it ∈ interactions_for exampleDB ["Warfarin", "Paracetamol"],
      it ∈ exampleDB.interactions) ∧
    (∀ it ∈ interactions_for exampleDB ["Warfarin", "Paracetamol"],
      it.pair.1 ≠ it.pair.2) :=
  interactions_for_invariance exampleDB ["Warfarin", "Paracetamol"]
    ["Paracetamol", "Warfarin", "Paracetamol"] (by decide) (by decide) (by decide)

/-- C2 counterexample: the two inputs are permutations of each other, yet
`interactions_for` returns the two matching records in different orders, so
the result lists are not identical. -/
theorem interactions_for_order_counterexample :
    List.Perm ["Amio", "Bupro", "Cipro"] ["Cipro", "Bupro", "Amio"] ∧
    interactions_for orderDB ["Amio", "Bupro", "Cipro"] =
      [⟨("Amio", "Bupro"), "minor", "ab"⟩, ⟨("Bupro", "Cipro"), "major", "bc"⟩] ∧
    interactions_for orderDB ["Cipro", "Bupro", "Amio"] =
      [⟨("Bupro", "Cipro"), "major", "bc"⟩, ⟨("Amio", "Bupro"), "minor", "ab"⟩] ∧
    interactions_for orderDB ["Amio", "Bupro", "Cipro"] ≠
      interactions_for orderDB ["Cipro", "Bupro", "Amio"] := by decide

/-- C1 (amended): the warnings of `check` are exactly the per-entry results
of the warning test, in entry order; the total is defined exactly when both
dose and frequency are present and strictly positive; the warning test
fires exactly when the total is defined, the age-bracketed maximum is known
*and strictly positive*, and the total strictly exceeds it, with the
warning carrying the computed total and the configured maximum; at a known
positive maximum, a total equal to the maximum never warns and a total of
maximum + 1 warns with exactly those two numbers. -/
theorem check_warning_boundary (db : DrugDB) (items : List DrugEntry) (age : Nat) :
    ((check db items age).warnings = items.filterMap (warnFor db age)) ∧
    (∀ e t, totalMg e = some t ↔
      ∃ d f, e.dose_mg = some d ∧ 0 < d ∧ e.frequency_per_day = some f ∧ 0 < f ∧
        t = d * f) ∧
    (∀ e w, warnFor db age e = some w ↔
      ∃ t m, totalMg e = some t ∧ max_daily_mg db e.drug age = some m ∧
        0 < m ∧ m < t ∧ w = ⟨e.drug, "Dose exceeds max daily limit", t, m⟩) ∧
    (∀ e m, max_daily_mg db e.drug age = some m → 0 < m →
      (totalMg e = some m → warnFor db age e = none) ∧
      (totalMg e = some (m + 1) → warnFor db age e =
        some ⟨e.drug, "Dose exceeds max daily limit", m + 1, m⟩)) := by
  refine ⟨check_warnings db items age, totalMg_eq_some_iff,
    warnFor_eq_some_iff db age, ?_⟩
  intro e m hm hm0
  constructor
  · intro ht
    cases hw : warnFor db age e with
    | none => rfl
    | some w =>
      obtain ⟨t', m', ht', hm', -, hlt, -⟩ := (warnFor_eq_some_iff db age e w).1 hw
      rw [ht] at ht'
      rw [hm] at hm'
      rw [Option.some_inj] at ht' hm'
      subst ht'; subst hm'
      exact absurd hlt (Nat.lt_irrefl m)
  · intro ht
    exact (warnFor_eq_some_iff db age e _).2
      ⟨m + 1, m, ht, hm, hm0, Nat.lt_succ_self m, rfl⟩

/-- Witness for C1 at the example dataset (max 4000 for Paracetamol at age
30): total 4000 does not warn, total 4001 warns with both numbers. -/
theorem check_warning_boundary_witness :
    max_daily_mg exampleDB "Paracetamol" 30 = some 4000 ∧
    warnFor exampleDB 30 ⟨"Paracetamol", some 4000, some 1⟩ = none ∧
    warnFor exampleDB 30 ⟨"Paracetamol", some 4001, some 1⟩ =
      some ⟨"Paracetamol", "Dose exceeds max daily limit", 4001, 4000⟩ :=
  ⟨by decide,
    ((check_warning_boundary exampleDB [] 30).2.2.2
      ⟨"Paracetamol", some 4000, some 1⟩ 4000 (by decide) (by decide)).1 (by decide),
    ((check_warning_boundary exampleDB [] 30).2.2.2
      ⟨"Paracetamol", some 4001, some 1⟩ 4000 (by decide) (by decide)).2 (by decide)⟩

/-- C1 counterexample: with a configured maximum of 0 (a known value), an
entry of total 5 exceeds it, yet `check` emits no warning — the code's
truthiness test additionally requires the maximum to be nonzero. -/
theorem check_zero_max_counterexample :
    WellFormed zeroMaxDB ∧
    totalMg ⟨"Apixan", some 5, some 1⟩ = some 5 ∧
    max_daily_mg zeroMaxDB "Apixan" 30 = some 0 ∧
    5 > 0 ∧
    (check zeroMaxDB [⟨"Apixan", some 5, some 1⟩] 30).warnings = [] := by decide

/-- C5: `check` is a total function of the database, the entries and the
age — it returns a result for every input, its warnings are exactly the
per-entry warning-test results, an entry with a missing or zero dose or
frequency never contributes a warning, and every entry still receives a
dosage-guidance row.  (Purity is inherent to the embedding: `check` reads
`db` and returns a new result, leaving `db` untouched.) -/
theorem check_total_and_suppression (db : DrugDB) (items : List DrugEntry)
    (age : Nat) :
    ((check db items age).warnings = items.filterMap (warnFor db age)) ∧
    (∀ e, (e.dose_mg = none ∨ e.dose_mg = some 0 ∨ e.frequency_per_day = none ∨
        e.frequency_per_day = some 0) → warnFor db age e = none) ∧
    (∀ e ∈ items, dictLookup (check db items age).dosage_guidance e.drug =
      some ⟨default_dose_for_age db e.drug age, max_daily_mg db e.drug age⟩) := by
  refine ⟨check_warnings db items age, ?_, ?_⟩
  · intro e he
    cases hw : warnFor db age e with
    | none => rfl
    | some w =>
      obtain ⟨t, m, ht, -, -, -, -⟩ := (warnFor_eq_some_iff db age e w).1 hw
      obtain ⟨d, f, hd, hd0, hf, hf0, -⟩ := (totalMg_eq_some_iff e t).1 ht
      rcases he with h | h | h | h
      · rw [h] at hd; cases hd
      · rw [h] at hd
        rw [Option.some_inj] at hd
        exact absurd (hd ▸ hd0) (Nat.lt_irrefl 0)
      · rw [h] at hf; cases hf
      · rw [h] at hf
        rw [Option.some_inj] at hf
        exact absurd (hf ▸ hf0) (Nat.lt_irrefl 0)
  · intro e he
    rw [check_guidance_lookup, if_pos (List.mem_map_of_mem (fun i => i.drug) he)]

/-- Witness for C5 at the example dataset: an entry with a missing dose
produces no warning but still gets guidance. -/
theorem check_total_and_suppression_witness :
    warnFor exampleDB 30 ⟨"Paracetamol", none, some 2⟩ = none ∧
    dictLookup (check exampleDB [⟨"Paracetamol", none, some 2⟩] 30).dosage_guidance
      "Paracetamol" = some ⟨some "500mg q6h", some 4000⟩ :=
  ⟨(check_total_and_suppression exampleDB [⟨"Paracetamol", none, some 2⟩] 30).2.1
      ⟨"Paracetamol", none, some 2⟩ (Or.inl rfl),
    (check_total_and_suppression exampleDB [⟨"Paracetamol", none, some 2⟩] 30).2.2
      ⟨"Paracetamol", none, some 2⟩ (by decide)⟩

/-- C8 (amended): `normalize` lowers *and strips* the raw input, then
returns the canonical name of the first record in declaration order whose
lowered name equals, or whose lowered aliases contain, that key — `none`
when no record matches; on the example dataset, "acetaminophen" normalizes
to "Paracetamol". -/
theorem normalize_first_match :
    (∀ (db : DrugDB) (x : String),
      normalize db x =
        (db.drugs.find? (fun d =>
          lowerStr d.name = stripStr (lowerStr x) ∨
          stripStr (lowerStr x) ∈ d.aliases.map lowerStr)).map (fun d => d.name)) ∧
    normalize exampleDB "acetaminophen" = some "Paracetamol" :=
  ⟨fun db x => normalizeFrom_eq_findFirst (stripStr (lowerStr x)) db.drugs,
    by decide⟩

/-- C8 counterexample: on the example dataset the input " paracetamol"
(leading space) matches no record case-insensitively, so the claim as
stated demands `none`, yet `normalize` strips the input and returns
"Paracetamol". -/
theorem normalize_strip_counterexample :
    normalize exampleDB " paracetamol" = some "Paracetamol" ∧
    normalizeSpecLiteral exampleDB " paracetamol" = none := by decide

/-- C9: `default_dose_for_age` returns the record's `child_dose` for the
child and adolescent brackets and its `adult_dose` for the adult bracket,
and `none` for an unknown drug; `max_daily_mg` applies the same bracket
selection to the `max_daily_dose_mg` table and returns `none` when the drug
has no (truthy) row there; on the example dataset, Paracetamol at age 8
gives "250mg q6h" and at age 30 gives "500mg q6h". -/
theorem dose_bracket_selection :
    (∀ (db : DrugDB) (drug : String) (age : Nat) (d : DrugRecord),
      findRecord db drug = some d →
      ((age_group age = .child ∨ age_group age = .adolescent) →
        default_dose_for_age db drug age = d.child_dose) ∧
      (age_group age = .adult → default_dose_for_age db drug age = d.adult_dose)) ∧
    (∀ (db : DrugDB) (drug : String) (age : Nat),
      findRecord db drug = none → default_dose_for_age db drug age = none) ∧
    (∀ (db : DrugDB) (drug : String) (age : Nat) (m : MaxEntry),
      dictLookup db.max_daily_dose_mg drug = some m → maxEntryTruthy m = true →
      ((age_group age = .child ∨ age_group age = .adolescent) →
        max_daily_mg db drug age = m.child) ∧
      (age_group age = .adult → max_daily_mg db drug age = m.adult)) ∧
    (∀ (db : DrugDB) (drug : String) (age : Nat),
      dictLookup db.max_daily_dose_mg drug = none → max_daily_mg db drug age = none) ∧
    default_dose_for_age exampleDB "Paracetamol" 8 = some "250mg q6h" ∧
    default_dose_for_age exampleDB "Paracetamol" 30 = some "500mg q6h" := by
  refine ⟨?_, ?_, ?_, ?_, by decide, by decide⟩
  · intro db drug age d hd
    constructor
    · rintro (hb | hb) <;> simp [default_dose_for_age, hd, hb]
    · intro hb; simp [default_dose_for_age, hd, hb]
  · intro db drug age hd
    simp [default_dose_for_age, hd]
  · intro db drug age m hm htr
    constructor
    · rintro (hb | hb) <;> simp [max_daily_mg, hm, htr, hb]
    · intro hb; simp [max_daily_mg, hm, htr, hb]
  · intro db drug age hm
    simp [max_daily_mg, hm]

/-- Witness for C9 at the example dataset's Paracetamol record. -/
theorem dose_bracket_selection_witness :
    findRecord exampleDB "Paracetamol" =
      some ⟨"Paracetamol", some "500mg q6h", some "250mg q6h", ["Acetaminophen"]⟩ ∧
    default_dose_for_age exampleDB "Paracetamol" 8 = some "250mg q6h" ∧
    default_dose_for_age exampleDB "Paracetamol" 30 = some "500mg q6h" ∧
    max_daily_mg exampleDB "Paracetamol" 8 = some 2000 :=
  ⟨by decide,
    (dose_bracket_selection.1 exampleDB "Paracetamol" 8
      ⟨"Paracetamol", some "500mg q6h", some "250mg q6h", ["Acetaminophen"]⟩
      (by decide)).1 (Or.inl (by decide)),
    (dose_bracket_selection.1 exampleDB "Paracetamol" 30
      ⟨"Paracetamol", some "500mg q6h", some "250mg q6h", ["Acetaminophen"]⟩
      (by decide)).2 (by decide),
    (dose_bracket_selection.2.2.1 exampleDB "Paracetamol" 8 ⟨some 4000, some 2000⟩
      (by decide) (by decide)).1 (Or.inl (by decide))⟩

/-- C4: a non-empty explicit drug list is used exclusively — the result does
not depend on the text, the collaborator outcome or the fallback parses —
and equals the explicit entries with each drug name normalized; with no
explicit list, the text path returns the fallback parses (the collaborator
guard accepts none of its possible results), again normalized per entry;
with neither text nor explicit drugs the result is empty; normalization of
an entry keeps the raw string (and the whole entry) when `normalize` fails,
and replaces the drug field with the canonical name when it succeeds. -/
theorem extract_precedence_normalization (db : DrugDB) (wf : WellFormed db)
    (granite : GraniteResult) (text : Option String)
    (explicit_drugs fallbackRaw : List DrugEntry) :
    (explicit_drugs ≠ [] →
      extract db granite text explicit_drugs fallbackRaw =
        explicit_drugs.map (normalizeEntry db)) ∧
    (textTruthy text = true →
      extract db granite text [] fallbackRaw = fallbackRaw.map (normalizeEntry db)) ∧
    (extract db granite none [] fallbackRaw = []) ∧
    (∀ e, normalize db e.drug = none → normalizeEntry db e = e) ∧
    (∀ e c, normalize db e.drug = some c → (normalizeEntry db e).drug = c) := by
  obtain ⟨-, hne, -, -, -, -, -⟩ := wf
  refine ⟨?_, ?_, rfl, ?_, ?_⟩
  · intro hex
    rw [extract, if_pos (List.length_pos.2 hex)]
  · intro htx
    cases granite <;>
      simp [extract, htx, parse_prescription, graniteUsableList]
  · intro e h
    cases e with
    | mk drug dose freq => simp [normalizeEntry, pyOrStr, h]
  · intro e c h
    obtain ⟨d, hdm, hdc, -⟩ := normalizeFrom_eq_some _ _ _ h
    have hc0 : c ≠ "" := hdc ▸ hne d hdm
    simp [normalizeEntry, pyOrStr, h, hc0]

/-- Witness for C4 at the example dataset: an explicit entry wins over the
text and is normalized; the no-input case is empty. -/
theorem extract_precedence_witness :
    extract exampleDB (.generated "ignored") (some "Take Warfarin daily")
      [⟨"acetaminophen", some 500, some 2⟩] [⟨"Warfarin", none, none⟩] =
      [⟨"Paracetamol", some 500, some 2⟩] ∧
    extract exampleDB .noPipe none [] [] = [] := by
  constructor
  · rw [(extract_precedence_normalization exampleDB (by decide) (.generated "ignored")
      (some "Take Warfarin daily") [⟨"acetaminophen", some 500, some 2⟩]
      [⟨"Warfarin", none, none⟩]).1 (by decide)]
    decide
  · exact (extract_precedence_normalization exampleDB (by decide) .noPipe none []
      []).2.2.1

/-! ### The spec's indexed interaction lookup, compared with the scan

`DrugDB.__init__` in the source builds no index: it stores the parsed
dataset and `interactions_for` rescans the interaction table for every
pair of every query.  The index the spec describes is modelled above
(`specPairIndex`, `specInteractionsAmong`); the theorems here show the
indexed lookup is extensionally equal to the source's scan on any table
with at most one record per unordered pair. -/

theorem dictInsert_append {κ α : Type} [DecidableEq κ]
    (m : List (κ × α)) (k : κ) (v : α) (h : ∀ p ∈ m, p.1 ≠ k) :
    dictInsert m k v = m ++ [(k, v)] := by
  rw [dictInsert, if_neg]
  intro hany
  obtain ⟨p, hp, he⟩ := List.any_eq_true.1 hany
  exact h p hp (of_decide_eq_true he)

theorem specPairIndex_eq_map (db : DrugDB)
    (hdist : db.interactions.Pairwise (fun it it' =>
      sortedKey it.pair.1 it.pair.2 ≠ sortedKey it'.pair.1 it'.pair.2)) :
    specPairIndex db =
      db.interactions.map (fun it => (sortedKey it.pair.1 it.pair.2, it)) := by
  suffices h : ∀ (L : List Interaction) (acc : List ((String × String) × Interaction)),
      L.Pairwise (fun it it' =>
        sortedKey it.pair.1 it.pair.2 ≠ sortedKey it'.pair.1 it'.pair.2) →
      (∀ it ∈ L, ∀ p ∈ acc, p.1 ≠ sortedKey it.pair.1 it.pair.2) →
      L.foldl (fun acc it => dictInsert acc (sortedKey it.pair.1 it.pair.2) it) acc =
        acc ++ L.map (fun it => (sortedKey it.pair.1 it.pair.2, it)) by
    simpa [specPairIndex] using h db.interactions [] hdist (by simp)
  intro L
  induction L with
  | nil => simp
  | cons it L ih =>
    intro acc hpw hacc
    rw [List.foldl_cons,
      dictInsert_append acc _ it (hacc it (List.mem_cons_self it L))]
    rw [ih (acc ++ [(sortedKey it.pair.1 it.pair.2, it)])
      (List.pairwise_cons.1 hpw).2 ?_]
    · simp
    · intro it' hit' p hp
      rcases List.mem_append.1 hp with hpa | hpb
      · exact hacc it' (List.mem_cons.2 (Or.inr hit')) p hpa
      · have : p = (sortedKey it.pair.1 it.pair.2, it) := by simpa using hpb
        rw [this]
        exact (List.pairwise_cons.1 hpw).1 it' hit'

theorem dictLookup_map_key (L : List Interaction) (k : String × String) :
    dictLookup (L.map (fun it => (sortedKey it.pair.1 it.pair.2, it))) k =
      L.find? (fun it => sortedKey it.pair.1 it.pair.2 = k) := by
  induction L with
  | nil => rfl
  | cons it L ih =>
    by_cases h : sortedKey it.pair.1 it.pair.2 = k
    · rw [List.map_cons, dictLookup, if_pos h,
        List.find?_cons_of_pos _ (by simpa using h)]
    · rw [List.map_cons, dictLookup, if_neg h,
        List.find?_cons_of_neg _ (by simpa using h)]
      exact ih

theorem filter_key_eq_find?_toList (L : List Interaction) (k : String × String)
    (hdist : L.Pairwise (fun it it' =>
      sortedKey it.pair.1 it.pair.2 ≠ sortedKey it'.pair.1 it'.pair.2)) :
    L.filter (fun it => sortedKey it.pair.1 it.pair.2 = k) =
      (L.find? (fun it => sortedKey it.pair.1 it.pair.2 = k)).toList := by
  induction L with
  | nil => rfl
  | cons it L ih =>
    by_cases h : sortedKey it.pair.1 it.pair.2 = k
    · rw [List.filter_cons_of_pos (by simpa using h),
        List.find?_cons_of_pos _ (by simpa using h)]
      have hnil : L.filter (fun it => sortedKey it.pair.1 it.pair.2 = k) = [] := by
        rw [List.filter_eq_nil_iff]
        intro it' hit' hk
        exact (List.pairwise_cons.1 hdist).1 it' hit'
          (h.trans (of_decide_eq_true hk).symm)
      rw [hnil]
      rfl
    · rw [List.filter_cons_of_neg (by simpa using h),
        List.find?_cons_of_neg _ (by simpa using h)]
      exact ih (List.pairwise_cons.1 hdist).2

theorem filterMap_eq_flatMap_toList {α β : Type} (f : α → Option β) (l : List α) :
    l.filterMap f = l.flatMap (fun x => (f x).toList) := by
  induction l with
  | nil => rfl
  | cons a l ih => cases h : f a <;> simp [List.filterMap_cons, h, ih]

theorem flatMap_congr' {α β : Type} (l : List α) (f g : α → List β)
    (h : ∀ a ∈ l, f a = g a) : l.flatMap f = l.flatMap g := by
  induction l with
  | nil => rfl
  | cons a l ih =>
    rw [List.flatMap_cons, List.flatMap_cons, h a (List.mem_cons_self a l),
      ih (fun a' ha' => h a' (List.mem_cons.2 (Or.inr ha')))]

theorem sortedKey_pySetEq2 {a b : String} (hab : strLt a b = true)
    (p : String × String) :
    pySetEq2 p a b = true ↔ sortedKey p.1 p.2 = (a, b) := by
  constructor
  · intro h
    rcases pySetEq2_cases (strLt_ne hab) h with ⟨h1, h2⟩ | ⟨h1, h2⟩
    · rw [sortedKey, h1, h2, if_pos hab]
    · rw [sortedKey, h1, h2]
      simp [strLt_asymm hab]
  · intro h
    rw [sortedKey] at h
    by_cases hp : strLt p.1 p.2 = true
    · rw [if_pos hp] at h
      obtain ⟨h1, h2⟩ := Prod.mk.injEq .. ▸ h
      rw [← h1, ← h2] at hab ⊢
      simp [pySetEq2]
    · rw [if_neg hp] at h
      obtain ⟨h1, h2⟩ := Prod.mk.injEq .. ▸ h
      rw [← h1, ← h2] at hab ⊢
      simp [pySetEq2]

/-- On a table with at most one record per unordered pair (the spec's data
model), the indexed lookup of `specInteractionsAmong` agrees with the
source's per-query scan `interactions_for` on every query. -/
theorem indexed_lookup_eq_scan (db : DrugDB)
    (hdist : db.interactions.Pairwise (fun it it' =>
      sortedKey it.pair.1 it.pair.2 ≠ sortedKey it'.pair.1 it'.pair.2))
    (drugs : List String) :
    specInteractionsAmong db drugs = interactions_for db drugs := by
  rw [specInteractionsAmong, interactions_for_eq_flatMap,
    filterMap_eq_flatMap_toList]
  apply flatMap_congr'
  intro ab hab
  have hlt : strLt ab.1 ab.2 = true := ((mem_pairKeys drugs ab).1 hab).2.2
  rw [specPairIndex_eq_map db hdist, dictLookup_map_key,
    ← filter_key_eq_find?_toList db.interactions ab hdist, matchingInteractions]
  apply List.filter_congr
  intro it _
  by_cases hk : sortedKey it.pair.1 it.pair.2 = ab
  · have hpy : pySetEq2 it.pair ab.1 ab.2 = true :=
      (sortedKey_pySetEq2 hlt it.pair).2 (by rwa [Prod.mk.eta])
    simp [hk, hpy]
  · have hpy : pySetEq2 it.pair ab.1 ab.2 = false := by
      cases hcase : pySetEq2 it.pair ab.1 ab.2 with
      | false => rfl
      | true =>
        have h' : sortedKey it.pair.1 it.pair.2 = (ab.1, ab.2) :=
          (sortedKey_pySetEq2 hlt it.pair).1 hcase
        rw [Prod.mk.eta] at h'
        exact absurd h' hk
    simp [hk, hpy]

/-- Witness-style instance of the index/scan agreement on the example
dataset. -/
theorem indexed_lookup_eq_scan_witness :
    specInteractionsAmong exampleDB ["Warfarin", "Paracetamol"] =
      interactions_for exampleDB ["Warfarin", "Paracetamol"] :=
  indexed_lookup_eq_scan exampleDB (by decide) ["Warfarin", "Paracetamol"]

end Model
